import Mathlib

/-!
Shallow embedding of the CallBrain audio-analysis service core:
the WAV encoder (`writeWavHeader`, `audioBufferToWav`), the fenced-JSON
response cleaner (`cleanAndParseJSON`) and the `analyzeAudio` orchestrator
(conversion gating, size limit, bounded retry loop with exponential
backoff).  Byte buffers are `List Nat` (each entry one byte), JavaScript
strings are `List Char`, audio samples are rationals (JavaScript doubles
are rationals; the operations used here — clamp, scale, truncate — are
order-exact, see the comments at `rawInt16`).  The external collaborators
(the Gemini transport, `JSON.parse`, the Web Audio decoder) are supplied
as parameters of an environment record, exactly at the interface the
source uses them.
-/

namespace CallBrain

/-- Characters of a string literal, the form JavaScript strings take here. -/
def cs (s : String) : List Char := s.toList

/-- Does `hay` start with `pat`?  Backs the JavaScript `endsWith` model. -/
def startsL : List Char → List Char → Bool
  | _, [] => true
  | [], _ :: _ => false
  | h :: hs, p :: ps => h = p && startsL hs ps

/-- JavaScript `String.prototype.includes`: contiguous substring test. -/
def hasSub (needle : List Char) : List Char → Bool
  | [] => startsL [] needle
  | c :: t => startsL (c :: t) needle || hasSub needle t

/-- JavaScript `String.prototype.endsWith`. -/
def endsL (hay suffixChars : List Char) : Bool :=
  startsL hay.reverse suffixChars.reverse

/-- ASCII branch of JavaScript `toLowerCase` (the filenames the claims
quantify over are ASCII; non-ASCII letters are left unchanged). -/
def lowerC (c : Char) : Char :=
  if 65 ≤ c.toNat ∧ c.toNat ≤ 90 then Char.ofNat (c.toNat + 32) else c

/-- JavaScript `String.prototype.toLowerCase` on an ASCII string. -/
def lowerS (s : List Char) : List Char := s.map lowerC

/-- Bytes written by `DataView.setUint16(_, n, true)` (little-endian,
value taken modulo 2^16 as `ToUint16` does). -/
def u16le (n : Nat) : List Nat := [n % 256, n / 256 % 256]

/-- Bytes written by `DataView.setUint32(_, n, true)` (little-endian,
value taken modulo 2^32 as `ToUint32` does). -/
def u32le (n : Nat) : List Nat :=
  [n % 256, n / 256 % 256, n / 65536 % 256, n / 16777216 % 256]

/-- Bytes written by `DataView.setUint32(_, n, false)` (big-endian). -/
def u32be (n : Nat) : List Nat :=
  [n / 16777216 % 256, n / 65536 % 256, n / 256 % 256, n % 256]

/-- Read two little-endian bytes back as an unsigned 16-bit value. -/
def readU16le (bytes : List Nat) (off : Nat) : Nat :=
  bytes.getD off 0 + 256 * bytes.getD (off + 1) 0

/-- Read four little-endian bytes back as an unsigned 32-bit value. -/
def readU32le (bytes : List Nat) (off : Nat) : Nat :=
  bytes.getD off 0 + 256 * bytes.getD (off + 1) 0 +
    65536 * bytes.getD (off + 2) 0 + 16777216 * bytes.getD (off + 3) 0

/-- Interpretation of an integer as a signed 16-bit value, the wrap
`DataView.setInt16` applies (`ToInt16`). -/
def toInt16 (n : Int) : Int :=
  if 32768 ≤ n % 65536 then n % 65536 - 65536 else n % 65536

/-- Read two little-endian bytes back as a signed 16-bit value. -/
def readI16le (bytes : List Nat) (off : Nat) : Int :=
  toInt16 (readU16le bytes off)

/-- Source line `const clamped = Math.max(-1, Math.min(1, sample));`. -/
def clampSample (s : ℚ) : ℚ := max (-1) (min 1 s)

/-- Source line `const int16 = clamped < 0 ? clamped * 0x8000 : clamped * 0x7FFF;`. -/
def scaleSample (c : ℚ) : ℚ := if c < 0 then c * 32768 else c * 32767

/-- Truncation toward zero, the integer conversion `setInt16` performs on
its argument (`ToIntegerOrInfinity`). -/
def truncTowardZero (q : ℚ) : Int := if q < 0 then ⌈q⌉ else ⌊q⌋

/-- The integer `setInt16` receives for one input sample: clamp, then the
asymmetric scale, then truncation toward zero.  Samples are modelled as
rationals: every finite double is a rational, `Math.max`/`Math.min` are
exact, and although the double multiplications `clamped * 0x8000` /
`clamped * 0x7FFF` round to nearest, rounding to nearest cannot leave the
interval spanned by exactly representable bounds (−32768, 0, 32767 are
exact doubles), so the range facts proved below transfer verbatim. -/
def rawInt16 (s : ℚ) : Int := truncTowardZero (scaleSample (clampSample s))

/-- The signed 16-bit value actually stored for one input sample. -/
def sampleToInt16 (s : ℚ) : Int := toInt16 (rawInt16 s)

/-- The two bytes `setInt16(offset, int16, true)` writes. -/
def i16le (v : Int) : List Nat := u16le (v % 65536).toNat

/-- The 44 header bytes produced by `writeWavHeader`, one field encoder
per `DataView` write, in offset order (the writes cover offsets 0–43
contiguously). -/
def writeWavHeader (sampleRate numChannels dataLength : Nat) : List Nat :=
  u32be 0x52494646 ++
  u32le (dataLength + 36) ++
  u32be 0x57415645 ++
  u32be 0x666d7420 ++
  u32le 16 ++
  u16le 1 ++
  u16le numChannels ++
  u32le sampleRate ++
  u32le (sampleRate * numChannels * 2) ++
  u16le (numChannels * 2) ++
  u16le 16 ++
  u32be 0x64617461 ++
  u32le dataLength

/-- A decoded Web Audio buffer: a sample rate and one sample sequence per
channel (`getChannelData(c)` is `channels[c]`). -/
structure AudioBuffer where
  sampleRate : Nat
  channels : List (List ℚ)

/-- Model of `buffer.numberOfChannels`. -/
def AudioBuffer.numberOfChannels (b : AudioBuffer) : Nat := b.channels.length

/-- Model of `buffer.length`, the frame count (in a real `AudioBuffer` every
channel array has this length). -/
def AudioBuffer.frames (b : AudioBuffer) : Nat := (b.channels.headD []).length

/-- The `AudioBuffer` invariant: all channel buffers have equal length. -/
def AudioBuffer.valid (b : AudioBuffer) : Prop :=
  ∀ ch ∈ b.channels, ch.length = b.frames

instance (b : AudioBuffer) : Decidable b.valid :=
  inferInstanceAs (Decidable (∀ ch ∈ b.channels, ch.length = b.frames))

/-- Model of `audioBufferToWav`: header for `length * numChannels * 2` data bytes,
then the interleaved samples, channel-fastest, two bytes each. -/
def audioBufferToWav (b : AudioBuffer) : List Nat :=
  writeWavHeader b.sampleRate b.numberOfChannels
      (b.frames * b.numberOfChannels * 2) ++
  (List.range b.frames).flatMap fun i =>
    b.channels.flatMap fun ch => i16le (rawInt16 (ch.getD i 0))

/-- The backtick character (0x60). -/
def tick : Char := Char.ofNat 96

/-- The JavaScript `\s` character class. -/
def jsWhitespace (c : Char) : Bool :=
  c.toNat = 32 || c.toNat = 9 || c.toNat = 10 || c.toNat = 11 ||
  c.toNat = 12 || c.toNat = 13 || c.toNat = 160 || c.toNat = 0x1680 ||
  (0x2000 ≤ c.toNat && c.toNat ≤ 0x200A) || c.toNat = 0x2028 ||
  c.toNat = 0x2029 || c.toNat = 0x202F || c.toNat = 0x205F ||
  c.toNat = 0x3000 || c.toNat = 0xFEFF

/-- When the text starts with three backticks, the remainder after them. -/
def ticks3 : List Char → Option (List Char)
  | a :: b :: c :: r => if a = tick ∧ b = tick ∧ c = tick then some r else none
  | _ => none

/-- Split at the first occurrence of three backticks: `some (before, after)`
with the fence itself consumed, `none` when there is none.  This is where
the regex `/```(?:json)?\s*([\s\S]*?)\s*```/` anchors its (leftmost) match. -/
def splitTicks : List Char → Option (List Char × List Char)
  | [] => none
  | c :: rest =>
    match ticks3 (c :: rest) with
    | some r => some ([], r)
    | none => (splitTicks rest).map fun p => (c :: p.1, p.2)

/-- The optional `(?:json)?` tag right after the opening fence. -/
def afterOpen : List Char → List Char
  | 'j' :: 's' :: 'o' :: 'n' :: r => r
  | r => r

/-- The greedy leading `\s*` of the fence pattern. -/
def dropWs : List Char → List Char
  | [] => []
  | c :: r => if jsWhitespace c then dropWs r else c :: r

/-- Contents up to (exclusive) the first occurrence of three backticks,
`none` when no closing fence exists.  Because the captured group
`([\s\S]*?)` is lazy, the regex closes the match at the first later
fence, so the group runs exactly up to it. -/
def takeGroup : List Char → Option (List Char)
  | [] => none
  | c :: rest =>
    match ticks3 (c :: rest) with
    | some _ => some []
    | none => (takeGroup rest).map fun g => c :: g

/-- The trailing `\s*` before the closing fence: strip the maximal
whitespace run at the end of the captured text. -/
def stripTrailingWs (l : List Char) : List Char :=
  (l.reverse.dropWhile jsWhitespace).reverse

/-- Group 1 of the first match of `/```(?:json)?\s*([\s\S]*?)\s*```/`,
or `none` when the pattern does not match. -/
def extractFenced (text : List Char) : Option (List Char) :=
  match splitTicks text with
  | none => none
  | some (_, rest) =>
    match takeGroup (dropWs (afterOpen rest)) with
    | none => none
    | some g => some (stripTrailingWs g)

/-- Model of `cleanAndParseJSON`, parameterised by the platform `JSON.parse`
(modelled as a function into an optional parsed-result type; `none` is a
thrown `SyntaxError`): parse the interior of the fenced block when a fence
matches, the whole text otherwise. -/
def cleanAndParseJSON {α : Type} (parse : List Char → Option α)
    (text : List Char) : Option α :=
  match extractFenced text with
  | some inner => parse inner
  | none => parse text

/-- Enumeration `CallSentiment` from `types.ts`. -/
inductive CallSentiment where
  | positive
  | neutral
  | negative
deriving DecidableEq

/-- Record `CallAnalysis` from `types.ts`. -/
structure CallAnalysis where
  summary : List Char
  transcript : List Char
  sentiment : CallSentiment
  actionItems : List (List Char)
  keyInsights : List (List Char)
deriving DecidableEq

/-- The `File` attributes `analyzeAudio` inspects: `name`, `type`
(declared MIME type, called `ftype` here) and `size` in bytes. -/
structure JsFile where
  name : List Char
  ftype : List Char
  size : Nat
deriving DecidableEq

/-- Outcome of one `ai.models.generateContent` call: a response carrying
`response.text` (possibly empty), or a thrown error carrying an optional
HTTP `status` and a `message`. -/
inductive ReqOutcome where
  | success (text : List Char)
  | failure (status : Option Nat) (message : List Char)
deriving DecidableEq

/-- The environment of one orchestration call: the external facts the
source consults.  `convert` is the result of `convertMp4ToWav` (the byte
size of the produced WAV blob, `none` when decoding fails), `requests i`
is the outcome of the i-th request issued (0-based, in issue order) and
`jsonParse` is the platform `JSON.parse` specialised to the result type. -/
structure OrchEnv where
  apiKeyPresent : Bool
  convert : Option Nat
  requests : Nat → ReqOutcome
  jsonParse : List Char → Option CallAnalysis

/-- The errors `analyzeAudio` can throw, one constructor per throw site:
`missingKey` = "API Key is missing. Please check your environment
configuration.", `conversionFailed` = "Failed to convert audio file. The
file might be corrupted or incompatible.", `sizeLimit sz` = "Processed
file size (…MB) exceeds the 10MB limit. Please upload a shorter
recording." with the measured byte count `sz` interpolated (its one-digit
fixed-point rendering is presentation and not modelled), `invalidRequest`
= "Invalid request. The file format might not be supported.",
`parseFailed` = "Failed to parse AI response.", `emptyResponse` = "Empty
response from Gemini", `exhausted` = "Analysis failed after multiple
attempts.", and `rethrown st m` = the caught error object itself,
rethrown unchanged. -/
inductive OrchError where
  | missingKey
  | conversionFailed
  | sizeLimit (size : Nat)
  | invalidRequest
  | parseFailed
  | emptyResponse
  | exhausted
  | rethrown (status : Option Nat) (message : List Char)
deriving DecidableEq

/-- Observable side effects of one orchestration call: how many requests
were issued, the `setTimeout` backoff delays in order, and whether the
payload was base64-encoded (`fileToGenerativePart` ran). -/
structure Trace where
  requests : Nat
  sleeps : List Nat
  encoded : Bool
deriving DecidableEq

instance {ε α : Type} [DecidableEq ε] [DecidableEq α] : DecidableEq (Except ε α) :=
  fun a b =>
  match a, b with
  | .ok x, .ok y => decidable_of_iff (x = y) (by simp)
  | .error e, .error f => decidable_of_iff (e = f) (by simp)
  | .ok _, .error _ => isFalse (by simp)
  | .error _, .ok _ => isFalse (by simp)

/-- The `needsConversion` test of `analyzeAudio`: declared type contains
"mp4", or the lowercased filename ends in ".mp4" or ".m4a". -/
def needsConversion (input : JsFile) : Bool :=
  hasSub (cs "mp4") input.ftype ||
  endsL (lowerS input.name) (cs ".mp4") ||
  endsL (lowerS input.name) (cs ".m4a")

/-- The conversion stage: on the conversion path, `convertMp4ToWav`
yields a WAV blob whose size the environment supplies (type "audio/wav") or throws;
otherwise the original blob and declared type pass through unchanged.
Returns the `(finalBlob.size, finalMimeType)` pair entering the size
check. -/
def convertStage (env : OrchEnv) (input : JsFile) :
    Except OrchError (Nat × List Char) :=
  if needsConversion input then
    match env.convert with
    | some sz => .ok (sz, cs "audio/wav")
    | none => .error .conversionFailed
  else .ok (input.size, input.ftype)

/-- The inline-payload ceiling, `10 * 1024 * 1024` bytes. -/
def sizeLimitBytes : Nat := 10 * 1024 * 1024

/-- Source constant `maxRetries = 3`. -/
def maxRetries : Nat := 3

/-- Source retryability test: the message contains "500" or "503", or the
status field equals 500 or 503. -/
def isRetryable (status : Option Nat) (message : List Char) : Bool :=
  hasSub (cs "500") message || hasSub (cs "503") message ||
  status == some 500 || status == some 503

/-- What the catch block decides to do with a caught error. -/
inductive CatchDecision where
  | retry (delayMs : Nat)
  | failInvalid
  | failAsIs
deriving DecidableEq

/-- The catch block of the retry loop: retry (after
`2000 * Math.pow(2, attempt)` ms, with `attempt` already incremented)
when the error is retryable and the budget allows, else fail with the
invalid-request error when the message contains "400", else rethrow. -/
def classifyCatch (attempt : Nat) (status : Option Nat)
    (message : List Char) : CatchDecision :=
  if isRetryable status message = true ∧ attempt < maxRetries - 1 then
    .retry (2000 * 2 ^ (attempt + 1))
  else if hasSub (cs "400") message = true then .failInvalid
  else .failAsIs

/-- Message of the error thrown on falsy `response.text`. -/
def emptyResponseMessage : List Char := cs "Empty response from Gemini"

/-- Message of the error thrown when `cleanAndParseJSON` throws. -/
def parseFailedMessage : List Char := cs "Failed to parse AI response."

/-- The try block of one attempt: the request outcome, then the
empty-text check (`if (response.text)`; the empty string is falsy), then
`cleanAndParseJSON`.  `.error` carries what the catch block sees: the
`status` and `message` of the caught error, and the `OrchError` it maps to if
rethrown unchanged. -/
def attemptOutcome (env : OrchEnv) (reqIdx : Nat) :
    Except (Option Nat × List Char × OrchError) CallAnalysis :=
  match env.requests reqIdx with
  | .success text =>
    if text = [] then .error (none, emptyResponseMessage, .emptyResponse)
    else
      match cleanAndParseJSON env.jsonParse text with
      | some a => .ok a
      | none => .error (none, parseFailedMessage, .parseFailed)
  | .failure st msg => .error (st, msg, .rethrown st msg)

/-- The `while (attempt < maxRetries)` loop, with `fuel = maxRetries -
attempt` as the structural measure; exiting the loop (fuel 0) reaches the
post-loop `throw new Error("Analysis failed after multiple attempts.")`.
Returns the result together with the number of requests issued and the
backoff delays slept. -/
def runAttempts (env : OrchEnv) :
    Nat → Nat → Nat → List Nat →
    Except OrchError CallAnalysis × Nat × List Nat
  | 0, _, reqCount, sleeps => (.error .exhausted, reqCount, sleeps)
  | fuel + 1, attempt, reqCount, sleeps =>
    match attemptOutcome env reqCount with
    | .ok a => (.ok a, reqCount + 1, sleeps)
    | .error (st, msg, e) =>
      match classifyCatch attempt st msg with
      | .retry d => runAttempts env fuel (attempt + 1) (reqCount + 1) (sleeps ++ [d])
      | .failInvalid => (.error .invalidRequest, reqCount + 1, sleeps)
      | .failAsIs => (.error e, reqCount + 1, sleeps)

/-- Top-level `analyzeAudio`: the API-key guard, the conversion stage, the 10 MiB
size check, base64 encoding (recorded in the trace), then the retry loop
starting at attempt 0. -/
def analyzeAudio (env : OrchEnv) (input : JsFile) :
    Except OrchError CallAnalysis × Trace :=
  if env.apiKeyPresent = false then (.error .missingKey, ⟨0, [], false⟩)
  else
    match convertStage env input with
    | .error e => (.error e, ⟨0, [], false⟩)
    | .ok (sz, _mime) =>
      if sizeLimitBytes < sz then (.error (.sizeLimit sz), ⟨0, [], false⟩)
      else
        match runAttempts env maxRetries 0 0 [] with
        | (r, reqs, sleeps) => (r, ⟨reqs, sleeps, true⟩)


theorem runAttempts_zero (env : OrchEnv) (a rc : Nat) (sl : List Nat) :
    runAttempts env 0 a rc sl = (.error .exhausted, rc, sl) := rfl

theorem runAttempts_succ (env : OrchEnv) (n a rc : Nat) (sl : List Nat) :
    runAttempts env (n + 1) a rc sl =
      match attemptOutcome env rc with
      | .ok x => (.ok x, rc + 1, sl)
      | .error (st, m, e) =>
        match classifyCatch a st m with
        | .retry d => runAttempts env n (a + 1) (rc + 1) (sl ++ [d])
        | .failInvalid => (.error .invalidRequest, rc + 1, sl)
        | .failAsIs => (.error e, rc + 1, sl) := rfl

theorem attemptOutcome_failure (env : OrchEnv) (rc : Nat) (st : Option Nat)
    (m : List Char) (h : env.requests rc = .failure st m) :
    attemptOutcome env rc = .error (st, m, .rethrown st m) := by
  rw [attemptOutcome, h]

theorem attemptOutcome_empty (env : OrchEnv) (rc : Nat)
    (h : env.requests rc = .success []) :
    attemptOutcome env rc = .error (none, emptyResponseMessage, .emptyResponse) := by
  rw [attemptOutcome, h]
  rfl

theorem attemptOutcome_parsed (env : OrchEnv) (rc : Nat) (t : List Char)
    (a : CallAnalysis) (h : env.requests rc = .success t) (ht : t ≠ [])
    (hp : cleanAndParseJSON env.jsonParse t = some a) :
    attemptOutcome env rc = .ok a := by
  rw [attemptOutcome, h]
  simp [ht, hp]

theorem classifyCatch_retry (a : Nat) (st : Option Nat) (m : List Char)
    (hr : isRetryable st m = true) (ha : a < maxRetries - 1) :
    classifyCatch a st m = .retry (2000 * 2 ^ (a + 1)) := by
  rw [classifyCatch]
  simp [hr, ha]

theorem classifyCatch_noBudget (a : Nat) (st : Option Nat) (m : List Char)
    (ha : ¬ a < maxRetries - 1) (h4 : hasSub (cs "400") m = false) :
    classifyCatch a st m = .failAsIs := by
  rw [classifyCatch]
  simp [ha, h4]

theorem classifyCatch_invalid (a : Nat) (st : Option Nat) (m : List Char)
    (hr : isRetryable st m = false) (h4 : hasSub (cs "400") m = true) :
    classifyCatch a st m = .failInvalid := by
  rw [classifyCatch]
  simp [hr, h4]

theorem classifyCatch_asIs (a : Nat) (st : Option Nat) (m : List Char)
    (hr : isRetryable st m = false) (h4 : hasSub (cs "400") m = false) :
    classifyCatch a st m = .failAsIs := by
  rw [classifyCatch]
  simp [hr, h4]

theorem classifyCatch_retry_bound (a : Nat) (st : Option Nat) (m : List Char)
    (d : Nat) (h : classifyCatch a st m = .retry d) : a < maxRetries - 1 := by
  rw [classifyCatch] at h
  split_ifs at h with h1 h2
  · exact h1.2

theorem analyzeAudio_loop (env : OrchEnv) (input : JsFile) (sz : Nat)
    (mime : List Char) (r : Except OrchError CallAnalysis) (reqs : Nat)
    (sl : List Nat)
    (hk : env.apiKeyPresent = true)
    (hc : convertStage env input = .ok (sz, mime))
    (hsz : sz ≤ sizeLimitBytes)
    (hrun : runAttempts env maxRetries 0 0 [] = (r, reqs, sl)) :
    analyzeAudio env input = (r, ⟨reqs, sl, true⟩) := by
  rw [analyzeAudio]
  simp [hk, hc, hrun, Nat.not_lt.mpr hsz]

theorem isRetryable_400 (m : List Char) (h500 : hasSub (cs "500") m = false)
    (h503 : hasSub (cs "503") m = false) :
    isRetryable (some 400) m = false := by
  simp [isRetryable, h500, h503]


theorem convertStage_error (env : OrchEnv) (input : JsFile) (e : OrchError)
    (h : convertStage env input = .error e) : e = .conversionFailed := by
  rcases hn : needsConversion input
  · rw [convertStage] at h
    simp only [hn] at h
    simp at h
  · rw [convertStage] at h
    simp only [hn] at h
    rcases henv : env.convert with _ | s
    all_goals simp only [henv] at h
    · simp at h
      first
      | exact h
      | exact h.symm
    · simp at h

theorem attemptOutcome_error_ne_exhausted (env : OrchEnv) (rc : Nat)
    (st : Option Nat) (m : List Char) (e : OrchError)
    (h : attemptOutcome env rc = .error (st, m, e)) : e ≠ .exhausted := by
  intro hcontra
  subst hcontra
  rw [attemptOutcome] at h
  rcases henv : env.requests rc with t | ⟨s, msg⟩
  all_goals simp only [henv] at h
  · by_cases ht : t = []
    · rw [if_pos ht] at h
      simp at h
    · rw [if_neg ht] at h
      rcases hp : cleanAndParseJSON env.jsonParse t with _ | a
      all_goals simp only [hp] at h
      · simp at h
      · simp at h
  · simp at h

theorem runAttempts_ne_exhausted (env : OrchEnv) :
    ∀ (fuel attempt rc : Nat) (sl : List Nat),
      fuel + attempt = maxRetries → 1 ≤ fuel →
      (runAttempts env fuel attempt rc sl).1 ≠ Except.error OrchError.exhausted := by
  intro fuel
  induction fuel with
  | zero =>
    intro attempt rc sl _ h1
    omega
  | succ f ih =>
    intro attempt rc sl hsum _
    have hsum3 : f + 1 + attempt = 3 := by
      rw [show maxRetries = 3 from rfl] at hsum
      exact hsum
    rw [runAttempts_succ]
    rcases ho : attemptOutcome env rc with ⟨st, m, e⟩ | a
    · dsimp only
      rcases hcl : classifyCatch attempt st m with d | _ | _
      · dsimp only
        have hb := classifyCatch_retry_bound attempt st m d hcl
        rw [show maxRetries = 3 from rfl] at hb
        exact ih (attempt + 1) (rc + 1) (sl ++ [d])
          (by rw [show maxRetries = 3 from rfl]; omega) (by omega)
      · dsimp only
        simp
      · dsimp only
        intro hcontra
        have he : e = OrchError.exhausted := by
          simpa using hcontra
        exact attemptOutcome_error_ne_exhausted env rc st m e ho he
    · simp

theorem analyzeAudio_ne_exhausted (env : OrchEnv) (input : JsFile) :
    (analyzeAudio env input).1 ≠ Except.error OrchError.exhausted := by
  rw [analyzeAudio]
  by_cases hk : env.apiKeyPresent = false
  · simp [hk]
  · rw [if_neg hk]
    rcases hc : convertStage env input with e | ⟨sz, mime⟩
    · have he := convertStage_error env input e hc
      subst he
      simp
    · dsimp only
      by_cases hsz : sizeLimitBytes < sz
      · simp [hsz]
      · rw [if_neg hsz]
        rcases hr : runAttempts env maxRetries 0 0 [] with ⟨r, reqs, sl⟩
        have := runAttempts_ne_exhausted env maxRetries 0 0 []
          (by rw [show maxRetries = 3 from rfl]) (by decide)
        rw [hr] at this
        simpa using this



theorem startsL_head (l t : List Char) (a : Char) (h : startsL l (a :: t) = true) :
    ∃ r, l = a :: r := by
  cases l with
  | nil => simp [startsL] at h
  | cons x xs =>
    simp [startsL] at h
    exact ⟨xs, by rw [h.1]⟩

theorem runAttempts_c2 (env : OrchEnv) (st0 st1 : Option Nat)
    (m0 m1 t : List Char) (a : CallAnalysis)
    (h0 : env.requests 0 = .failure st0 m0) (hr0 : isRetryable st0 m0 = true)
    (h1 : env.requests 1 = .failure st1 m1) (hr1 : isRetryable st1 m1 = true)
    (h2 : env.requests 2 = .success t) (ht : t ≠ [])
    (hp : cleanAndParseJSON env.jsonParse t = some a) :
    runAttempts env maxRetries 0 0 [] = (.ok a, 3, [4000, 8000]) := by
  rw [show maxRetries = 2 + 1 from rfl, runAttempts_succ,
      attemptOutcome_failure env 0 st0 m0 h0]
  dsimp only
  rw [classifyCatch_retry 0 st0 m0 hr0 (by decide)]
  dsimp only
  norm_num
  rw [show (2 : Nat) = 1 + 1 from rfl, runAttempts_succ,
      attemptOutcome_failure env 1 st1 m1 h1]
  dsimp only
  rw [classifyCatch_retry 1 st1 m1 hr1 (by decide)]
  dsimp only
  norm_num
  rw [show (1 : Nat) = 0 + 1 from rfl, runAttempts_succ,
      attemptOutcome_parsed env 2 t a h2 ht hp]

theorem runAttempts_c1 (env : OrchEnv) (st0 st1 st2 : Option Nat)
    (m0 m1 m2 : List Char)
    (h0 : env.requests 0 = .failure st0 m0) (hr0 : isRetryable st0 m0 = true)
    (h1 : env.requests 1 = .failure st1 m1) (hr1 : isRetryable st1 m1 = true)
    (h2 : env.requests 2 = .failure st2 m2) (hr2 : isRetryable st2 m2 = true)
    (h400 : hasSub (cs "400") m2 = false) :
    runAttempts env maxRetries 0 0 [] = (.error (.rethrown st2 m2), 3, [4000, 8000]) := by
  rw [show maxRetries = 2 + 1 from rfl, runAttempts_succ,
      attemptOutcome_failure env 0 st0 m0 h0]
  dsimp only
  rw [classifyCatch_retry 0 st0 m0 hr0 (by decide)]
  dsimp only
  norm_num
  rw [show (2 : Nat) = 1 + 1 from rfl, runAttempts_succ,
      attemptOutcome_failure env 1 st1 m1 h1]
  dsimp only
  rw [classifyCatch_retry 1 st1 m1 hr1 (by decide)]
  dsimp only
  norm_num
  rw [show (1 : Nat) = 0 + 1 from rfl, runAttempts_succ,
      attemptOutcome_failure env 2 st2 m2 h2]
  dsimp only
  rw [classifyCatch_noBudget 2 st2 m2 (by decide) h400]

theorem runAttempts_c3 (env : OrchEnv) (st : Option Nat) (m : List Char)
    (h0 : env.requests 0 = .failure st m) (hr : isRetryable st m = false)
    (h400 : hasSub (cs "400") m = true) :
    runAttempts env maxRetries 0 0 [] = (.error .invalidRequest, 1, []) := by
  rw [show maxRetries = 2 + 1 from rfl, runAttempts_succ,
      attemptOutcome_failure env 0 st m h0]
  dsimp only
  rw [classifyCatch_invalid 0 st m hr h400]

theorem runAttempts_c9 (env : OrchEnv) (h0 : env.requests 0 = .success []) :
    runAttempts env maxRetries 0 0 [] = (.error .emptyResponse, 1, []) := by
  rw [show maxRetries = 2 + 1 from rfl, runAttempts_succ,
      attemptOutcome_empty env 0 h0]
  dsimp only
  rw [show classifyCatch 0 none emptyResponseMessage = .failAsIs from by decide]


/-- C1 (amended): the spec says that when all attempts are consumed without a
terminal success or terminal failure the orchestrator fails with the
ExhaustedRetriesError ("Analysis failed after multiple attempts.").  On the
code this post-loop path is unreachable: a retry happens only while
`attempt < maxRetries - 1`, so the final allowed attempt always ends in a
terminal success or a terminal failure, and when the retry budget runs out
(three retryable failures) the orchestrator rethrows the final attempt
error instead.  Part one: no orchestration call ever produces
`OrchError.exhausted`.  Part two: with three retryable failures the result
is the rethrown last error after three requests and backoffs of 4000 ms
and 8000 ms. -/
theorem c1_theorem :
    (∀ (env : OrchEnv) (input : JsFile),
        (analyzeAudio env input).1 ≠ Except.error OrchError.exhausted) ∧
    ∀ (env : OrchEnv) (input : JsFile) (sz : Nat) (mime : List Char)
      (st0 st1 st2 : Option Nat) (m0 m1 m2 : List Char),
      env.apiKeyPresent = true →
      convertStage env input = .ok (sz, mime) →
      sz ≤ sizeLimitBytes →
      env.requests 0 = .failure st0 m0 → isRetryable st0 m0 = true →
      env.requests 1 = .failure st1 m1 → isRetryable st1 m1 = true →
      env.requests 2 = .failure st2 m2 → isRetryable st2 m2 = true →
      hasSub (cs "400") m2 = false →
      analyzeAudio env input =
        (.error (.rethrown st2 m2), ⟨3, [4000, 8000], true⟩) := by
  constructor
  · exact analyzeAudio_ne_exhausted
  · intro env input sz mime st0 st1 st2 m0 m1 m2 hk hc hsz h0 hr0 h1 hr1 h2 hr2 h400
    exact analyzeAudio_loop env input sz mime _ _ _ hk hc hsz
      (runAttempts_c1 env st0 st1 st2 m0 m1 m2 h0 hr0 h1 hr1 h2 hr2 h400)

/-- Witness for C1 at a concrete all-503 environment. -/
theorem c1_witness :
    analyzeAudio ⟨true, none, fun _ => .failure (some 503) (cs "http 503"), fun _ => none⟩
        ⟨cs "b.mp3", cs "audio/mpeg", 7⟩ =
      (.error (.rethrown (some 503) (cs "http 503")), ⟨3, [4000, 8000], true⟩) :=
  c1_theorem.2 _ _ 7 (cs "audio/mpeg") (some 503) (some 503) (some 503)
    (cs "http 503") (cs "http 503") (cs "http 503") rfl rfl (by decide)
    rfl (by decide) rfl (by decide) rfl (by decide) (by decide)

/-- Counterexample to C1 as stated: every allowed request attempt is consumed
(three requests, both backoffs slept) without a terminal success, yet the
outcome is the rethrown 503 error, not `OrchError.exhausted` (the error
whose message is "Analysis failed after multiple attempts."). -/
theorem c1_counterexample :
    analyzeAudio ⟨true, none, fun _ => .failure (some 503) (cs "got 503"), fun _ => none⟩
        ⟨cs "a.mp3", cs "audio/mpeg", 5⟩ =
      (.error (.rethrown (some 503) (cs "got 503")), ⟨3, [4000, 8000], true⟩) ∧
    OrchError.rethrown (some 503) (cs "got 503") ≠ OrchError.exhausted := by
  constructor
  · decide
  · decide

/-- C2: when the remote request fails with status 503 on the first two
attempts and succeeds with parseable non-empty text on the third,
`analyzeAudio` returns the parsed result, issues exactly three requests,
and the two failures are followed by backoff waits of exactly 4000 ms and
then 8000 ms (2000 ms times 2 to the power attempt, attempt counted from
1). -/
theorem c2_theorem :
    ∀ (env : OrchEnv) (input : JsFile) (sz : Nat) (mime : List Char)
      (st0 st1 : Option Nat) (m0 m1 t : List Char) (a : CallAnalysis),
      env.apiKeyPresent = true →
      convertStage env input = .ok (sz, mime) →
      sz ≤ sizeLimitBytes →
      env.requests 0 = .failure st0 m0 → isRetryable st0 m0 = true →
      env.requests 1 = .failure st1 m1 → isRetryable st1 m1 = true →
      env.requests 2 = .success t → t ≠ [] →
      cleanAndParseJSON env.jsonParse t = some a →
      analyzeAudio env input = (.ok a, ⟨3, [4000, 8000], true⟩) := by
  intro env input sz mime st0 st1 m0 m1 t a hk hc hsz h0 hr0 h1 hr1 h2 ht hp
  exact analyzeAudio_loop env input sz mime _ _ _ hk hc hsz
    (runAttempts_c2 env st0 st1 m0 m1 t a h0 hr0 h1 hr1 h2 ht hp)

/-- Witness for C2 at a concrete 503/503/success environment. -/
theorem c2_witness :
    analyzeAudio ⟨true, none,
        (fun k => if k < 2 then .failure (some 503) (cs "oops 503") else .success (cs "R")),
        (fun t => if t = cs "R" then some ⟨cs "sum", cs "tr", .neutral, [], []⟩ else none)⟩
        ⟨cs "c.mp3", cs "audio/mpeg", 5⟩ =
      (.ok ⟨cs "sum", cs "tr", .neutral, [], []⟩, ⟨3, [4000, 8000], true⟩) :=
  c2_theorem _ _ 5 (cs "audio/mpeg") (some 503) (some 503)
    (cs "oops 503") (cs "oops 503") (cs "R") ⟨cs "sum", cs "tr", .neutral, [], []⟩
    rfl rfl (by decide) rfl (by decide) rfl (by decide) rfl (by decide) (by decide)

/-- C3: when the remote request fails with a status-400 client error (status
400 and a message carrying "400", the signal the code inspects, with no
500/503 marker), `analyzeAudio` fails on the first attempt with
`OrchError.invalidRequest` (the error whose message is "Invalid request.
The file format might not be supported.") and issues no further request:
one request, no backoff. -/
theorem c3_theorem :
    ∀ (env : OrchEnv) (input : JsFile) (sz : Nat) (mime m : List Char),
      env.apiKeyPresent = true →
      convertStage env input = .ok (sz, mime) →
      sz ≤ sizeLimitBytes →
      env.requests 0 = .failure (some 400) m →
      hasSub (cs "400") m = true →
      hasSub (cs "500") m = false → hasSub (cs "503") m = false →
      analyzeAudio env input = (.error .invalidRequest, ⟨1, [], true⟩) := by
  intro env input sz mime m hk hc hsz h0 h4 h5 h53
  exact analyzeAudio_loop env input sz mime _ _ _ hk hc hsz
    (runAttempts_c3 env (some 400) m h0 (isRetryable_400 m h5 h53) h4)

/-- Witness for C3 at a concrete status-400 environment. -/
theorem c3_witness :
    analyzeAudio ⟨true, none, fun _ => .failure (some 400) (cs "status 400"), fun _ => none⟩
        ⟨cs "d.mp3", cs "audio/mpeg", 9⟩ =
      (.error .invalidRequest, ⟨1, [], true⟩) :=
  c3_theorem _ _ 9 (cs "audio/mpeg") (cs "status 400") rfl rfl (by decide)
    rfl (by decide) (by decide) (by decide)

/-- C9: when the remote request succeeds but returns empty response text,
`analyzeAudio` fails terminally on that same attempt with
`OrchError.emptyResponse` (message "Empty response from Gemini"): one
request, no backoff, and the thrown error is not classified retryable. -/
theorem c9_theorem :
    ∀ (env : OrchEnv) (input : JsFile) (sz : Nat) (mime : List Char),
      env.apiKeyPresent = true →
      convertStage env input = .ok (sz, mime) →
      sz ≤ sizeLimitBytes →
      env.requests 0 = .success [] →
      analyzeAudio env input = (.error .emptyResponse, ⟨1, [], true⟩) ∧
        isRetryable none emptyResponseMessage = false := by
  intro env input sz mime hk hc hsz h0
  refine ⟨?_, by decide⟩
  exact analyzeAudio_loop env input sz mime _ _ _ hk hc hsz (runAttempts_c9 env h0)

/-- Witness for C9 at a concrete empty-response environment. -/
theorem c9_witness :
    analyzeAudio ⟨true, none, fun _ => .success [], fun _ => none⟩
        ⟨cs "e.mp3", cs "audio/mpeg", 11⟩ =
      (.error .emptyResponse, ⟨1, [], true⟩) ∧
    isRetryable none emptyResponseMessage = false :=
  c9_theorem _ _ 11 (cs "audio/mpeg") rfl rfl (by decide) rfl

/-- C4: when the post-conversion payload size strictly exceeds 10 MiB
(10485760 bytes), `analyzeAudio` fails with `OrchError.sizeLimit` carrying
the measured size (the thrown message interpolates this size) and neither
base64 encoding nor any remote request occurs; a payload of exactly 10 MiB
passes the size check and is encoded. -/
theorem c4_theorem :
    ∀ (env : OrchEnv) (input : JsFile) (sz : Nat) (mime : List Char),
      env.apiKeyPresent = true →
      convertStage env input = .ok (sz, mime) →
      (sizeLimitBytes < sz →
        analyzeAudio env input = (.error (.sizeLimit sz), ⟨0, [], false⟩)) ∧
      (sz = sizeLimitBytes → (analyzeAudio env input).2.encoded = true) := by
  intro env input sz mime hk hc
  constructor
  · intro hlt
    rw [analyzeAudio]
    simp [hk, hc, hlt]
  · intro heq
    subst heq
    rcases hr : runAttempts env maxRetries 0 0 [] with ⟨r, reqs, sl⟩
    rw [analyzeAudio]
    simp [hk, hc, hr]

/-- Witness for C4 at sizes 10485761 (rejected) and 10485760 (accepted). -/
theorem c4_witness :
    analyzeAudio ⟨true, none, fun _ => .success [], fun _ => none⟩
        ⟨cs "f.mp3", cs "audio/mpeg", 10485761⟩ =
      (.error (.sizeLimit 10485761), ⟨0, [], false⟩) ∧
    (analyzeAudio ⟨true, none, fun _ => .success [], fun _ => none⟩
        ⟨cs "f.mp3", cs "audio/mpeg", 10485760⟩).2.encoded = true :=
  ⟨(c4_theorem ⟨true, none, fun _ => .success [], fun _ => none⟩
      ⟨cs "f.mp3", cs "audio/mpeg", 10485761⟩ 10485761 (cs "audio/mpeg")
      rfl rfl).1 (by decide),
   (c4_theorem ⟨true, none, fun _ => .success [], fun _ => none⟩
      ⟨cs "f.mp3", cs "audio/mpeg", 10485760⟩ 10485760 (cs "audio/mpeg")
      rfl rfl).2 rfl⟩

/-- C5: the conversion path is taken precisely when the declared type
contains "mp4" or the lowercased filename ends in ".mp4" or ".m4a"; a
.mp3 or .wav file whose declared type has no "mp4" never converts; and
when conversion is not triggered the original size and declared type pass
through the conversion stage unchanged. -/
theorem c5_theorem :
    ∀ (input : JsFile) (env : OrchEnv),
      (needsConversion input =
        (hasSub (cs "mp4") input.ftype ||
         endsL (lowerS input.name) (cs ".mp4") ||
         endsL (lowerS input.name) (cs ".m4a"))) ∧
      ((endsL (lowerS input.name) (cs ".mp3") = true ∨
        endsL (lowerS input.name) (cs ".wav") = true) →
        hasSub (cs "mp4") input.ftype = false →
        needsConversion input = false) ∧
      (needsConversion input = false →
        convertStage env input = .ok (input.size, input.ftype)) := by
  intro input env
  refine ⟨rfl, ?_, ?_⟩
  · intro h3w hmp4
    have hhead : ∃ (a : Char) (r : List Char),
        (lowerS input.name).reverse = a :: r ∧ a ≠ '4' ∧ a ≠ 'a' := by
      rcases h3w with h3 | hw
      · rw [endsL, show (cs ".mp3").reverse = '3' :: cs "pm." from rfl] at h3
        obtain ⟨r, hr⟩ := startsL_head _ _ _ h3
        exact ⟨'3', r, hr, by decide, by decide⟩
      · rw [endsL, show (cs ".wav").reverse = 'v' :: cs "aw." from rfl] at hw
        obtain ⟨r, hr⟩ := startsL_head _ _ _ hw
        exact ⟨'v', r, hr, by decide, by decide⟩
    obtain ⟨a, r, hr, ha4, haa⟩ := hhead
    have e4 : endsL (lowerS input.name) (cs ".mp4") = false := by
      rw [endsL, show (cs ".mp4").reverse = '4' :: cs "pm." from rfl, hr]
      simp [startsL, ha4]
    have ea : endsL (lowerS input.name) (cs ".m4a") = false := by
      rw [endsL, show (cs ".m4a").reverse = 'a' :: cs "4m." from rfl, hr]
      simp [startsL, haa]
    rw [needsConversion, hmp4, e4, ea]
    rfl
  · intro hnc
    rw [convertStage]
    simp [hnc]

/-- Witness for C5 at the concrete file "Call.MP3" of type "audio/mpeg". -/
theorem c5_witness :
    needsConversion ⟨cs "Call.MP3", cs "audio/mpeg", 3⟩ = false ∧
    convertStage ⟨true, none, fun _ => .success [], fun _ => none⟩
        ⟨cs "Call.MP3", cs "audio/mpeg", 3⟩ =
      .ok (3, cs "audio/mpeg") := by
  have h := c5_theorem ⟨cs "Call.MP3", cs "audio/mpeg", 3⟩
    ⟨true, none, fun _ => .success [], fun _ => none⟩
  have hf : needsConversion ⟨cs "Call.MP3", cs "audio/mpeg", 3⟩ = false :=
    h.2.1 (Or.inl (by decide)) (by decide)
  exact ⟨hf, h.2.2 hf⟩


theorem toInt16_eq_self (n : Int) (h1 : -32768 ≤ n) (h2 : n ≤ 32767) :
    toInt16 n = n := by
  rw [toInt16]
  split_ifs with h <;> omega

theorem clampSample_le (s : ℚ) : clampSample s ≤ 1 :=
  max_le (by norm_num) (min_le_left _ _)

theorem clampSample_ge (s : ℚ) : -1 ≤ clampSample s := le_max_left _ _

/-- C10: for every finite sample value whatsoever, clamping runs before
scaling, so the integer handed to the 16-bit store always lies in
[-32768, 32767] and the stored value equals it exactly: no input sample,
however far outside [-1, 1], wraps around. -/
theorem c10_theorem : ∀ s : ℚ,
    -32768 ≤ rawInt16 s ∧ rawInt16 s ≤ 32767 ∧ sampleToInt16 s = rawInt16 s := by
  intro s
  have hc1 := clampSample_ge s
  have hc2 := clampSample_le s
  have key : -32768 ≤ rawInt16 s ∧ rawInt16 s ≤ 32767 := by
    rw [rawInt16, scaleSample]
    split_ifs with hneg
    · have hq0 : clampSample s * 32768 < 0 := by nlinarith
      have hq1 : (((-32768 : ℤ) : ℚ)) ≤ clampSample s * 32768 := by push_cast; nlinarith
      rw [truncTowardZero, if_pos hq0]
      constructor
      · have h := Int.ceil_mono hq1
        rwa [Int.ceil_intCast] at h
      · have h : ⌈clampSample s * 32768⌉ ≤ 0 :=
          Int.ceil_le.mpr (by push_cast; exact hq0.le)
        omega
    · push_neg at hneg
      have hq0 : ¬ clampSample s * 32767 < 0 := by push_neg; nlinarith
      have hq2 : clampSample s * 32767 ≤ ((32767 : ℤ) : ℚ) := by push_cast; nlinarith
      rw [truncTowardZero, if_neg hq0]
      constructor
      · have h0 : (0 : ℤ) ≤ ⌊clampSample s * 32767⌋ :=
          Int.le_floor.mpr (by push_cast; nlinarith)
        omega
      · have h := Int.floor_mono hq2
        rwa [Int.floor_intCast] at h
  exact ⟨key.1, key.2, toInt16_eq_self _ key.1 key.2⟩


theorem writeWavHeader_length (sr ch dl : Nat) :
    (writeWavHeader sr ch dl).length = 44 := rfl

set_option maxHeartbeats 1000000 in
theorem readU16le_header_22 (sr ch dl : Nat) (rest : List Nat) :
    readU16le (writeWavHeader sr ch dl ++ rest) 22 =
      ch % 256 + 256 * (ch / 256 % 256) := rfl

set_option maxHeartbeats 1000000 in
theorem readU32le_header_24 (sr ch dl : Nat) (rest : List Nat) :
    readU32le (writeWavHeader sr ch dl ++ rest) 24 =
      sr % 256 + 256 * (sr / 256 % 256) + 65536 * (sr / 65536 % 256) +
        16777216 * (sr / 16777216 % 256) := rfl

set_option maxHeartbeats 1000000 in
theorem readU32le_header_40 (sr ch dl : Nat) (rest : List Nat) :
    readU32le (writeWavHeader sr ch dl ++ rest) 40 =
      dl % 256 + 256 * (dl / 256 % 256) + 65536 * (dl / 65536 % 256) +
        16777216 * (dl / 16777216 % 256) := rfl

set_option maxHeartbeats 1000000 in
theorem readU32le_header_4 (sr ch dl : Nat) (rest : List Nat) :
    readU32le (writeWavHeader sr ch dl ++ rest) 4 =
      (dl + 36) % 256 + 256 * ((dl + 36) / 256 % 256) +
        65536 * ((dl + 36) / 65536 % 256) +
        16777216 * ((dl + 36) / 16777216 % 256) := rfl

theorem flatMap_const_length {α : Type} (l : List α) (g : α → List Nat) (k : Nat)
    (hg : ∀ a, (g a).length = k) : (l.flatMap g).length = l.length * k := by
  induction l with
  | nil => simp
  | cons x xs ih =>
    simp only [List.flatMap_cons, List.length_append, List.length_cons, ih, hg]
    ring

theorem flatMap_const_getD {α : Type} (g : α → List Nat) (k : Nat)
    (hk : ∀ a, (g a).length = k) (d : α) :
    ∀ (l : List α) (c r : Nat), c < l.length → r < k →
      (l.flatMap g).getD (k * c + r) 0 = (g (l.getD c d)).getD r 0 := by
  intro l
  induction l with
  | nil =>
    intro c r hc _
    simp at hc
  | cons x xs ih =>
    intro c r hc hr
    cases c with
    | zero =>
      simp only [List.flatMap_cons, Nat.mul_zero, Nat.zero_add, List.getD_cons_zero]
      exact List.getD_append _ _ _ _ (by rw [hk]; exact hr)
    | succ c0 =>
      have hidx : k * (c0 + 1) + r = (g x).length + (k * c0 + r) := by
        rw [hk]
        ring
      simp only [List.flatMap_cons, List.getD_cons_succ]
      rw [hidx, List.getD_append_right _ _ _ _ (by omega)]
      have : (g x).length + (k * c0 + r) - (g x).length = k * c0 + r := by omega
      rw [this]
      exact ih c0 r (by simpa using hc) hr

theorem range_getD (n i : Nat) (h : i < n) : (List.range n).getD i 0 = i := by
  simp [List.getD_eq_getElem?_getD, List.getElem?_range h]

theorem i16le_length (v : Int) : (i16le v).length = 2 := rfl

theorem wavData_length (b : AudioBuffer) :
    ((List.range b.frames).flatMap fun i =>
      b.channels.flatMap fun ch => i16le (rawInt16 (ch.getD i 0))).length =
    b.frames * (b.numberOfChannels * 2) := by
  rw [flatMap_const_length _ _ (b.numberOfChannels * 2)
      (fun i => flatMap_const_length _ _ 2 (fun ch => i16le_length _)),
    List.length_range]

theorem audioBufferToWav_length (b : AudioBuffer) :
    (audioBufferToWav b).length = 44 + b.frames * b.numberOfChannels * 2 := by
  rw [audioBufferToWav, List.length_append, writeWavHeader_length, wavData_length]
  ring


theorem i16le_getD_0 (v : Int) : (i16le v).getD 0 0 = (v % 65536).toNat % 256 := rfl

theorem i16le_getD_1 (v : Int) :
    (i16le v).getD 1 0 = (v % 65536).toNat / 256 % 256 := rfl

theorem wavData_getD (b : AudioBuffer) (i c r : Nat) (hi : i < b.frames)
    (hc : c < b.numberOfChannels) (hr : r < 2) :
    ((List.range b.frames).flatMap fun j =>
        b.channels.flatMap fun ch => i16le (rawInt16 (ch.getD j 0))).getD
      (2 * (i * b.numberOfChannels + c) + r) 0 =
    (i16le (rawInt16 ((b.channels.getD c []).getD i 0))).getD r 0 := by
  have hkf : ∀ j : Nat,
      ((b.channels.flatMap fun ch => i16le (rawInt16 (ch.getD j 0))).length) =
        b.numberOfChannels * 2 :=
    fun j => flatMap_const_length _ _ 2 (fun ch => i16le_length _)
  have hidx : 2 * (i * b.numberOfChannels + c) + r =
      (b.numberOfChannels * 2) * i + (2 * c + r) := by ring
  rw [hidx,
    flatMap_const_getD _ (b.numberOfChannels * 2) hkf 0 _ i (2 * c + r)
      (by simpa [List.length_range] using hi) (by omega),
    range_getD _ _ hi,
    flatMap_const_getD _ 2 (fun ch => i16le_length _) [] _ c r hc hr]

theorem c7_sample_readback (b : AudioBuffer) (i c : Nat) (hi : i < b.frames)
    (hc : c < b.numberOfChannels) :
    readI16le (audioBufferToWav b) (44 + 2 * (i * b.numberOfChannels + c)) =
      sampleToInt16 ((b.channels.getD c []).getD i 0) := by
  rw [readI16le, readU16le, audioBufferToWav,
    List.getD_append_right _ _ _ _ (by rw [writeWavHeader_length]; omega),
    List.getD_append_right _ _ _ _ (by rw [writeWavHeader_length]; omega),
    writeWavHeader_length,
    show 44 + 2 * (i * b.numberOfChannels + c) - 44 =
      2 * (i * b.numberOfChannels + c) + 0 from by omega,
    show 44 + 2 * (i * b.numberOfChannels + c) + 1 - 44 =
      2 * (i * b.numberOfChannels + c) + 1 from by omega,
    wavData_getD b i c 0 hi hc (by omega),
    wavData_getD b i c 1 hi hc (by omega),
    i16le_getD_0, i16le_getD_1]
  set v := rawInt16 ((b.channels.getD c []).getD i 0) with hv
  have hN : (v % 65536).toNat < 65536 := by omega
  have hNr : (v % 65536).toNat % 256 + 256 * ((v % 65536).toNat / 256 % 256) =
      (v % 65536).toNat := by omega
  rw [hNr, sampleToInt16, toInt16, toInt16]
  split_ifs with h1 h2 h2 <;> omega


theorem sampleToInt16_one : sampleToInt16 1 = 32767 := by
  have h : rawInt16 1 = 32767 := by
    rw [rawInt16, clampSample]
    norm_num [scaleSample, truncTowardZero]
  rw [sampleToInt16, h]
  decide

theorem sampleToInt16_negOne : sampleToInt16 (-1) = -32768 := by
  have h : rawInt16 (-1) = -32768 := by
    rw [rawInt16, clampSample]
    norm_num [scaleSample, truncTowardZero]
    rw [show ((-32768 : ℚ)) = ((-32768 : ℤ) : ℚ) by norm_num, Int.ceil_intCast]
  rw [sampleToInt16, h]
  decide

/-- C7: the WAV encoder clamps each sample to [-1, 1], scales negatives by
32768 and non-negatives by 32767, truncates toward zero and stores
little-endian, interleaved channel-fastest: the 16-bit value read back at
byte offset 44 + 2 * (frame * channelCount + channel) is exactly
`sampleToInt16` of that channel sample, and the samples +1.0 and -1.0
store 32767 and -32768 with no wraparound. -/
theorem c7_theorem :
    ∀ (b : AudioBuffer) (i c : Nat), b.valid →
      i < b.frames → c < b.numberOfChannels →
      readI16le (audioBufferToWav b) (44 + 2 * (i * b.numberOfChannels + c)) =
        sampleToInt16 ((b.channels.getD c []).getD i 0) ∧
      sampleToInt16 1 = 32767 ∧ sampleToInt16 (-1) = -32768 :=
  fun b i c _ hi hc =>
    ⟨c7_sample_readback b i c hi hc, sampleToInt16_one, sampleToInt16_negOne⟩

/-- Witness for C7 at a concrete one-channel buffer holding the sample 1. -/
theorem c7_witness :
    readI16le (audioBufferToWav ⟨8000, [[1]]⟩) (44 + 2 * (0 * 1 + 0)) =
      sampleToInt16 (((⟨8000, [[1]]⟩ : AudioBuffer).channels.getD 0 []).getD 0 0) ∧
    sampleToInt16 1 = 32767 ∧ sampleToInt16 (-1) = -32768 :=
  c7_theorem ⟨8000, [[1]]⟩ 0 0 (by decide) (by decide) (by decide)

/-- C6 (amended): for every valid AudioClip whose channel count fits 16 bits
and whose sample rate and data length (+36) fit 32 bits, the encoder
output length is 44 + frameCount * channelCount * 2 and re-parsing the
header at offsets 22 (channels, 16-bit LE), 24 (sample rate, 32-bit LE),
40 (data length) and 4 (chunk size = data length + 36) recovers the exact
inputs.  The amendment adds the width bounds: `DataView.setUint16` and
`setUint32` store values modulo 2^16 / 2^32, so without the bounds the
header fields wrap (see the counterexample). -/
theorem c6_theorem :
    ∀ b : AudioBuffer, b.valid →
      b.numberOfChannels < 65536 → b.sampleRate < 4294967296 →
      b.frames * b.numberOfChannels * 2 + 36 < 4294967296 →
      (audioBufferToWav b).length = 44 + b.frames * b.numberOfChannels * 2 ∧
      readU16le (audioBufferToWav b) 22 = b.numberOfChannels ∧
      readU32le (audioBufferToWav b) 24 = b.sampleRate ∧
      readU32le (audioBufferToWav b) 40 = b.frames * b.numberOfChannels * 2 ∧
      readU32le (audioBufferToWav b) 4 = b.frames * b.numberOfChannels * 2 + 36 := by
  intro b _ hch hsr hdl
  refine ⟨audioBufferToWav_length b, ?_, ?_, ?_, ?_⟩
  · rw [audioBufferToWav, readU16le_header_22]
    omega
  · rw [audioBufferToWav, readU32le_header_24]
    omega
  · rw [audioBufferToWav, readU32le_header_40]
    omega
  · rw [audioBufferToWav, readU32le_header_4]
    omega

/-- Witness for C6 at a concrete two-channel, zero-frame, 16 kHz buffer. -/
theorem c6_witness :
    (audioBufferToWav ⟨16000, [[], []]⟩).length = 44 + 0 * 2 * 2 ∧
    readU16le (audioBufferToWav ⟨16000, [[], []]⟩) 22 = 2 ∧
    readU32le (audioBufferToWav ⟨16000, [[], []]⟩) 24 = 16000 ∧
    readU32le (audioBufferToWav ⟨16000, [[], []]⟩) 40 = 0 * 2 * 2 ∧
    readU32le (audioBufferToWav ⟨16000, [[], []]⟩) 4 = 0 * 2 * 2 + 36 :=
  c6_theorem ⟨16000, [[], []]⟩ (by decide) (by decide) (by decide) (by decide)

/-- Counterexample to C6 as stated: the one-channel clip with sample rate
2^32 is valid (all channel buffers of equal length), yet re-parsing the
header yields sample rate 0, not 2^32 — `setUint32` wrote the value modulo
2^32. -/
theorem c6_counterexample :
    (⟨4294967296, [[]]⟩ : AudioBuffer).valid ∧
    (⟨4294967296, [[]]⟩ : AudioBuffer).sampleRate = 4294967296 ∧
    readU32le (audioBufferToWav ⟨4294967296, [[]]⟩) 24 = 0 := by
  refine ⟨by decide, rfl, by decide⟩


theorem ticks3_ne (x : Char) (l : List Char) (hx : x ≠ tick) :
    ticks3 (x :: l) = none := by
  match l with
  | [] => rfl
  | [_] => rfl
  | b :: c :: r => simp [ticks3, hx]

theorem ticks3_ticks (r : List Char) :
    ticks3 (tick :: tick :: tick :: r) = some r := by
  simp [ticks3]

theorem splitTicks_append (pre rest : List Char) (h : ∀ c ∈ pre, c ≠ tick) :
    splitTicks (pre ++ tick :: tick :: tick :: rest) = some (pre, rest) := by
  induction pre with
  | nil =>
    rw [List.nil_append, splitTicks, ticks3_ticks]
  | cons x t ih =>
    rw [List.cons_append, splitTicks,
      ticks3_ne x (t ++ tick :: tick :: tick :: rest) (h x (by simp)),
      ih (fun c hc => h c (by simp [hc]))]
    rfl

theorem splitTicks_none (l : List Char) (h : ∀ c ∈ l, c ≠ tick) :
    splitTicks l = none := by
  induction l with
  | nil => rfl
  | cons x t ih =>
    rw [splitTicks, ticks3_ne x t (h x (by simp)),
      ih (fun c hc => h c (by simp [hc]))]
    rfl

theorem takeGroup_append (g rest : List Char) (h : ∀ c ∈ g, c ≠ tick) :
    takeGroup (g ++ tick :: tick :: tick :: rest) = some g := by
  induction g with
  | nil =>
    rw [List.nil_append, takeGroup, ticks3_ticks]
  | cons x t ih =>
    rw [List.cons_append, takeGroup,
      ticks3_ne x (t ++ tick :: tick :: tick :: rest) (h x (by simp)),
      ih (fun c hc => h c (by simp [hc]))]
    rfl

theorem dropWs_all (ws l : List Char) (h : ∀ c ∈ ws, jsWhitespace c = true) :
    dropWs (ws ++ l) = dropWs l := by
  induction ws with
  | nil => rw [List.nil_append]
  | cons x t ih =>
    rw [List.cons_append, dropWs, if_pos (by exact h x (by simp)),
      ih (fun c hc => h c (by simp [hc]))]

theorem dropWs_head (x : Char) (l : List Char) (hx : jsWhitespace x = false) :
    dropWs (x :: l) = x :: l := by
  rw [dropWs, if_neg (by simp [hx])]

theorem dropWhile_ws_all (l1 l2 : List Char) (h : ∀ c ∈ l1, jsWhitespace c = true) :
    List.dropWhile jsWhitespace (l1 ++ l2) = List.dropWhile jsWhitespace l2 := by
  induction l1 with
  | nil => rw [List.nil_append]
  | cons x t ih =>
    rw [List.cons_append, List.dropWhile_cons, if_pos (by exact h x (by simp)),
      ih (fun c hc => h c (by simp [hc]))]

theorem afterOpen_json (r : List Char) : afterOpen (cs "json" ++ r) = r := rfl

theorem afterOpen_no_json (l : List Char)
    (h : ∀ r, l ≠ 'j' :: 's' :: 'o' :: 'n' :: r) : afterOpen l = l := by
  rw [afterOpen.eq_def]
  split
  · exact absurd rfl (h _)
  · rfl


theorem ws_ne_tick (c : Char) (h : jsWhitespace c = true) : c ≠ tick := by
  intro he
  subst he
  simp [jsWhitespace, tick] at h

theorem ws_ne_j (c : Char) (h : jsWhitespace c = true) : c ≠ 'j' := by
  intro he
  subst he
  simp [jsWhitespace] at h

theorem cs_fence_json : cs "```json" = [tick, tick, tick] ++ cs "json" := by decide

theorem cs_fence : cs "```" = [tick, tick, tick] := by decide

theorem stripTrailingWs_append_ws (j ws : List Char)
    (hws : ∀ c ∈ ws, jsWhitespace c = true) (x : Char) (t : List Char)
    (hrev : j.reverse = x :: t) (hx : jsWhitespace x = false) :
    stripTrailingWs (j ++ ws) = j := by
  rw [stripTrailingWs, List.reverse_append,
    dropWhile_ws_all _ _ (fun c hc => hws c (by simpa using hc)), hrev,
    List.dropWhile_cons, if_neg (by simp [hx]), ← hrev, List.reverse_reverse]

theorem extractFenced_tagged (pre ws1 mid ws2 post : List Char)
    (hpre : ∀ c ∈ pre, c ≠ tick)
    (hws1 : ∀ c ∈ ws1, jsWhitespace c = true)
    (hws2 : ∀ c ∈ ws2, jsWhitespace c = true)
    (hmid : ∀ c ∈ mid, c ≠ tick) :
    extractFenced (pre ++ cs "```json" ++ ws1 ++ ('{' :: mid ++ ['}']) ++ ws2 ++
        cs "```" ++ post) =
      some ('{' :: mid ++ ['}']) := by
  have htext : pre ++ cs "```json" ++ ws1 ++ ('{' :: mid ++ ['}']) ++ ws2 ++
      cs "```" ++ post =
      pre ++ tick :: tick :: tick ::
        (cs "json" ++ (ws1 ++ ('{' :: (mid ++ (['}'] ++ (ws2 ++
          tick :: tick :: tick :: post)))))) := by
    rw [cs_fence_json, cs_fence]
    simp [List.append_assoc]
  rw [htext, extractFenced, splitTicks_append _ _ hpre]
  dsimp only
  rw [afterOpen_json, dropWs_all _ _ hws1, dropWs_head _ _ (by decide)]
  have hG : '{' :: (mid ++ (['}'] ++ (ws2 ++ tick :: tick :: tick :: post))) =
      ('{' :: (mid ++ (['}'] ++ ws2))) ++ tick :: tick :: tick :: post := by
    simp [List.append_assoc]
  have hGnt : ∀ c ∈ '{' :: (mid ++ (['}'] ++ ws2)), c ≠ tick := by
    intro c hc
    rcases List.mem_cons.mp hc with h1 | h2
    · subst h1; decide
    · rcases List.mem_append.mp h2 with h3 | h4
      · exact hmid c h3
      · rcases List.mem_append.mp h4 with h5 | h6
        · rw [List.mem_singleton.mp h5]; decide
        · exact ws_ne_tick c (hws2 c h6)
  rw [hG, takeGroup_append _ _ hGnt]
  dsimp only
  have hGsplit : '{' :: (mid ++ (['}'] ++ ws2)) = ('{' :: mid ++ ['}']) ++ ws2 := by
    simp [List.append_assoc]
  rw [hGsplit, stripTrailingWs_append_ws _ _ hws2 '}' (mid.reverse ++ ['{'])
    (by simp) (by decide)]


theorem afterOpen_cons_ne (x : Char) (t : List Char) (hx : x ≠ 'j') :
    afterOpen (x :: t) = x :: t :=
  afterOpen_no_json _ (by intro r h; injection h with h1 _; exact hx h1)

theorem afterOpen_ws_brace (ws1 rest : List Char)
    (hws1 : ∀ c ∈ ws1, jsWhitespace c = true)
    (hhead : ∃ t, rest = '{' :: t) :
    afterOpen (ws1 ++ rest) = ws1 ++ rest := by
  cases ws1 with
  | nil =>
    obtain ⟨t, ht⟩ := hhead
    rw [List.nil_append, ht]
    exact afterOpen_cons_ne _ _ (by decide)
  | cons w tl =>
    rw [List.cons_append]
    exact afterOpen_cons_ne _ _ (ws_ne_j w (hws1 w (by simp)))

theorem extractFenced_untagged (pre ws1 mid ws2 post : List Char)
    (hpre : ∀ c ∈ pre, c ≠ tick)
    (hws1 : ∀ c ∈ ws1, jsWhitespace c = true)
    (hws2 : ∀ c ∈ ws2, jsWhitespace c = true)
    (hmid : ∀ c ∈ mid, c ≠ tick) :
    extractFenced (pre ++ cs "```" ++ ws1 ++ ('{' :: mid ++ ['}']) ++ ws2 ++
        cs "```" ++ post) =
      some ('{' :: mid ++ ['}']) := by
  have htext : pre ++ cs "```" ++ ws1 ++ ('{' :: mid ++ ['}']) ++ ws2 ++
      cs "```" ++ post =
      pre ++ tick :: tick :: tick ::
        (ws1 ++ ('{' :: (mid ++ (['}'] ++ (ws2 ++
          tick :: tick :: tick :: post))))) := by
    rw [cs_fence]
    simp [List.append_assoc]
  rw [htext, extractFenced, splitTicks_append _ _ hpre]
  dsimp only
  rw [afterOpen_ws_brace _ _ hws1 ⟨_, rfl⟩, dropWs_all _ _ hws1,
    dropWs_head _ _ (by decide)]
  have hG : '{' :: (mid ++ (['}'] ++ (ws2 ++ tick :: tick :: tick :: post))) =
      ('{' :: (mid ++ (['}'] ++ ws2))) ++ tick :: tick :: tick :: post := by
    simp [List.append_assoc]
  have hGnt : ∀ c ∈ '{' :: (mid ++ (['}'] ++ ws2)), c ≠ tick := by
    intro c hc
    rcases List.mem_cons.mp hc with h1 | h2
    · subst h1; decide
    · rcases List.mem_append.mp h2 with h3 | h4
      · exact hmid c h3
      · rcases List.mem_append.mp h4 with h5 | h6
        · rw [List.mem_singleton.mp h5]; decide
        · exact ws_ne_tick c (hws2 c h6)
  rw [hG, takeGroup_append _ _ hGnt]
  dsimp only
  have hGsplit : '{' :: (mid ++ (['}'] ++ ws2)) = ('{' :: mid ++ ['}']) ++ ws2 := by
    simp [List.append_assoc]
  rw [hGsplit, stripTrailingWs_append_ws _ _ hws2 '}' (mid.reverse ++ ['{'])
    (by simp) (by decide)]

/-- C8: for response text containing a fenced code block (tagged json or
untagged) whose interior is a JSON object (a brace-delimited, backtick-free
body with optional surrounding whitespace), the parser result equals
parsing that interior directly; for the same object with no fence the
parser parses the whole text, so the result is identical and
fence-wrapping does not change the parsed result.  Quantified over every
parse function, so it holds for the platform JSON.parse in particular. -/
theorem c8_theorem :
    ∀ (α : Type) (parse : List Char → Option α) (pre mid ws1 ws2 post : List Char),
      (∀ c ∈ pre, c ≠ tick) → (∀ c ∈ mid, c ≠ tick) →
      (∀ c ∈ ws1, jsWhitespace c = true) → (∀ c ∈ ws2, jsWhitespace c = true) →
      cleanAndParseJSON parse (pre ++ cs "```json" ++ ws1 ++
          ('{' :: mid ++ ['}']) ++ ws2 ++ cs "```" ++ post) =
        parse ('{' :: mid ++ ['}']) ∧
      cleanAndParseJSON parse (pre ++ cs "```" ++ ws1 ++
          ('{' :: mid ++ ['}']) ++ ws2 ++ cs "```" ++ post) =
        parse ('{' :: mid ++ ['}']) ∧
      cleanAndParseJSON parse ('{' :: mid ++ ['}']) =
        parse ('{' :: mid ++ ['}']) := by
  intro α parse pre mid ws1 ws2 post hpre hmid hws1 hws2
  have hj_notick : ∀ c ∈ '{' :: mid ++ ['}'], c ≠ tick := by
    intro c hc
    rcases List.mem_cons.mp hc with h1 | h2
    · subst h1; decide
    · rcases List.mem_append.mp h2 with h3 | h4
      · exact hmid c h3
      · rw [List.mem_singleton.mp h4]; decide
  refine ⟨?_, ?_, ?_⟩
  · rw [cleanAndParseJSON,
      extractFenced_tagged pre ws1 mid ws2 post hpre hws1 hws2 hmid]
  · rw [cleanAndParseJSON,
      extractFenced_untagged pre ws1 mid ws2 post hpre hws1 hws2 hmid]
  · rw [cleanAndParseJSON, extractFenced, splitTicks_none _ hj_notick]

/-- Witness for C8 at the specification example object. -/
theorem c8_witness :
    cleanAndParseJSON some ([] ++ cs "```json" ++ cs "\n" ++
        ('{' :: cs "\"transcript\":\"hi\",\"summary\":\"s\",\"sentiment\":\"Neutral\",\"actionItems\":[],\"keyInsights\":[]" ++ ['}']) ++
        cs "\n" ++ cs "```" ++ []) =
      some ('{' :: cs "\"transcript\":\"hi\",\"summary\":\"s\",\"sentiment\":\"Neutral\",\"actionItems\":[],\"keyInsights\":[]" ++ ['}']) ∧
    cleanAndParseJSON some ([] ++ cs "```" ++ cs "\n" ++
        ('{' :: cs "\"transcript\":\"hi\",\"summary\":\"s\",\"sentiment\":\"Neutral\",\"actionItems\":[],\"keyInsights\":[]" ++ ['}']) ++
        cs "\n" ++ cs "```" ++ []) =
      some ('{' :: cs "\"transcript\":\"hi\",\"summary\":\"s\",\"sentiment\":\"Neutral\",\"actionItems\":[],\"keyInsights\":[]" ++ ['}']) ∧
    cleanAndParseJSON some
        ('{' :: cs "\"transcript\":\"hi\",\"summary\":\"s\",\"sentiment\":\"Neutral\",\"actionItems\":[],\"keyInsights\":[]" ++ ['}']) =
      some ('{' :: cs "\"transcript\":\"hi\",\"summary\":\"s\",\"sentiment\":\"Neutral\",\"actionItems\":[],\"keyInsights\":[]" ++ ['}']) :=
  c8_theorem (List Char) some []
    (cs "\"transcript\":\"hi\",\"summary\":\"s\",\"sentiment\":\"Neutral\",\"actionItems\":[],\"keyInsights\":[]")
    (cs "\n") (cs "\n") [] (by decide) (by decide) (by decide) (by decide)

end CallBrain
